import Mathlib

/-!
Verification of the Chip-8 emulator core (pengowen123/chip8_rust).

This file shallowly embeds the emulator's data model, the opcode decoder
(`interpret_instruction`, src/emulator/src/interpreter.rs), the BCD helper
(src/emulator/src/utils.rs), machine construction (`Chip8::new`,
src/emulator/src/lib.rs) and one fetch-decode-execute cycle (`Chip8::cycle`,
src/emulator/src/cpu.rs) as executable Lean definitions, and proves or
refutes the specification's claims about them.

Modelling conventions:
- Machine integers (u8/u16) are `Nat` with explicit `% 256` / `% 65536`
  where the Rust code wraps or casts.
- Byte arrays (`[u8; 4096]`) and the pixel array (`[bool; 8192]`) are total
  functions `Nat → Nat` / `Nat → Bool`; in-place slice copies become the
  functional update `updFn` / `copyFromSlice`.
- The `Vec<u16>` call stack is a `List Nat` whose head is the top of the
  stack (`Vec::push`/`Vec::pop` act on that end).
- Fallible Rust code returning `Result` becomes `Except ErrorKind _`.
- The external `Chip8IO` capability is modelled by `CycleInput`: the
  keyboard snapshot returned by `get_keys`, the key index that the blocking
  `Io::wait_key` poll loop eventually returns, and the byte produced by
  `rand::random::<u8>()`.  The number of times `io.draw` is invoked during
  a cycle is returned alongside the post-state.
-/

namespace Chip8Emu

/-- The size of memory (`MEMORY` in lib.rs). -/
def MEMORY : Nat := 4096

/-- Where to put the program in memory (`PROGRAM_START` in lib.rs). -/
def PROGRAM_START : Nat := 0x200

/-- The width of the display (`SCREEN_WIDTH` in lib.rs). -/
def SCREEN_WIDTH : Nat := 128

/-- The height of the display (`SCREEN_HEIGHT` in lib.rs). -/
def SCREEN_HEIGHT : Nat := 64

/-- The amount of pixels in the display (`PIXELS` in io.rs). -/
def PIXELS : Nat := SCREEN_WIDTH * SCREEN_HEIGHT

/-- Modelled from the spec: the file fontset.rs is not present in the
sources; lib.rs loads `FONTSET` into memory starting at `FONTSET_START`
with the comment "Load fontset into memory starting at address 0x50", and
the spec says font sprites for 16 hexadecimal characters (5 bytes each,
per `SetIndexChar`'s `I = font base + 5×VX`) occupy a reserved low region.
`FONTSET_START` is therefore 0x50. -/
def FONTSET_START : Nat := 0x50

/-- Modelled from the spec: the contents of the missing fontset.rs.  The
spec only requires a font table of 16 characters × 5 bytes starting at
`FONTSET_START`; these are the classic Chip-8 hexadecimal glyphs. -/
def FONTSET : List Nat :=
  [0xF0, 0x90, 0x90, 0x90, 0xF0,
   0x20, 0x60, 0x20, 0x20, 0x70,
   0xF0, 0x10, 0xF0, 0x80, 0xF0,
   0xF0, 0x10, 0xF0, 0x10, 0xF0,
   0x90, 0x90, 0xF0, 0x10, 0x10,
   0xF0, 0x80, 0xF0, 0x10, 0xF0,
   0xF0, 0x80, 0xF0, 0x90, 0xF0,
   0xF0, 0x10, 0x20, 0x40, 0x40,
   0xF0, 0x90, 0xF0, 0x90, 0xF0,
   0xF0, 0x90, 0xF0, 0x10, 0xF0,
   0xF0, 0x90, 0xF0, 0x90, 0x90,
   0xE0, 0x90, 0xE0, 0x90, 0xE0,
   0xF0, 0x80, 0x80, 0x80, 0xF0,
   0xE0, 0x90, 0x90, 0x90, 0xE0,
   0xF0, 0x80, 0xF0, 0x80, 0xF0,
   0xF0, 0x80, 0xF0, 0x80, 0x80]

/-- The error kinds of errors.rs (`error_chain!` block).  The `chain_err`
context strings added by cpu.rs are presentation only and are not
modelled. -/
inductive ErrorKind where
  | ProgramTooLarge (program_size : Nat) (memory_size : Nat)
  | InvalidOpcode (opcode : String)
  | InvalidAddress (address : Nat) (instr_name : String)
  | UnknownCharacter (character : Nat)
  | UnknownKey (key : Nat) (instr_name : String)
  | PixelOutOfBounds (x : Nat) (y : Nat)
deriving DecidableEq, Repr

/-- The instruction set of instruction.rs.  Operand kinds: `Address` is a
12-bit value, `Number` an 8-bit immediate, `Register` a 4-bit selector;
all are represented as `Nat`. -/
inductive Instruction where
  | Return
  | Goto (a : Nat)
  | Call (a : Nat)
  | OffsetGoto (a : Nat)
  | SetConst (x : Nat) (n : Nat)
  | AddConst (x : Nat) (n : Nat)
  | Move (x : Nat) (y : Nat)
  | BitOr (x : Nat) (y : Nat)
  | BitAnd (x : Nat) (y : Nat)
  | BitXor (x : Nat) (y : Nat)
  | Shr (x : Nat)
  | Shl (x : Nat)
  | Add (x : Nat) (y : Nat)
  | Sub (x : Nat) (y : Nat)
  | InverseSub (x : Nat) (y : Nat)
  | Rand (x : Nat) (n : Nat)
  | BCD (x : Nat)
  | SkipEqConst (x : Nat) (n : Nat)
  | SkipNeqConst (x : Nat) (n : Nat)
  | SkipEq (x : Nat) (y : Nat)
  | SkipNeq (x : Nat) (y : Nat)
  | RegDump (x : Nat)
  | RegLoad (x : Nat)
  | SetIndex (a : Nat)
  | AddIndex (x : Nat)
  | SetIndexChar (x : Nat)
  | GetDelay (x : Nat)
  | SetDelay (x : Nat)
  | WaitKey (x : Nat)
  | SkipKey (x : Nat)
  | SkipNotKey (x : Nat)
  | SetSound (x : Nat)
  | Draw (x : Nat) (y : Nat) (h : Nat)
  | ClearScreen
deriving DecidableEq, Repr

/-- `nibbles` from interpreter.rs: selects the inclusive nibble range
[start, e] of a 16-bit number by masking and shifting; the final `% 256`
is the `as u8` cast of the Rust code. -/
def nibbles (num : Nat) (start : Nat) (e : Nat) : Nat :=
  let e1 := e + 1
  let range := e1 - start
  let initial := 0xFFFF - (16 ^ (4 - range) - 1)
  let masked := num &&& (initial >>> (start * 4))
  (masked >>> (4 * (4 - e1))) % 256

/-- `nibble` from interpreter.rs: equivalent to `nibbles num index index`. -/
def nibble (num : Nat) (index : Nat) : Nat :=
  nibbles num index index

/-- One hexadecimal digit as an uppercase character, for the
`format!("0x{:04X}", opcode)` text carried by `InvalidOpcode`. -/
def hexDigitChar (n : Nat) : Char :=
  if n < 10 then Char.ofNat (48 + n) else Char.ofNat (55 + n)

/-- The text `format!("0x{:04X}", n)` produced for an invalid opcode. -/
def formatHex4 (n : Nat) : String :=
  "0x" ++ String.mk [hexDigitChar (n / 4096 % 16), hexDigitChar (n / 256 % 16),
                     hexDigitChar (n / 16 % 16), hexDigitChar (n % 16)]

/-- `interpret_instruction` from interpreter.rs: dispatch on the 4-tuple of
nibbles of the opcode.  The source's Rust `match` over
`(nibble 0, nibble 1, nibble 2, nibble 3)` with literal-and-wildcard
patterns is rendered as the equivalent ordered test chain (the patterns
are pairwise disjoint, so arm order does not change the function).  The
`instruction!` macro expands to `nibble`/`nibbles` field extractions,
inlined here. -/
def interpret_instruction (opcode : Nat) : Except ErrorKind Instruction :=
  let n0 := nibble opcode 0
  let n1 := nibble opcode 1
  let n2 := nibble opcode 2
  let n3 := nibble opcode 3
  if n0 = 0x0 ∧ n1 = 0x0 ∧ n2 = 0xE ∧ n3 = 0xE then .ok .Return
  else if n0 = 0x1 then .ok (.Goto (opcode &&& 0x0FFF))
  else if n0 = 0x2 then .ok (.Call (opcode &&& 0x0FFF))
  else if n0 = 0xB then .ok (.OffsetGoto (opcode &&& 0xFFF))
  else if n0 = 0x6 then .ok (.SetConst (nibble opcode 1) (nibbles opcode 2 3))
  else if n0 = 0x7 then .ok (.AddConst (nibble opcode 1) (nibbles opcode 2 3))
  else if n0 = 0x8 ∧ n3 = 0x0 then .ok (.Move (nibble opcode 1) (nibble opcode 2))
  else if n0 = 0x8 ∧ n3 = 0x1 then .ok (.BitOr (nibble opcode 1) (nibble opcode 2))
  else if n0 = 0x8 ∧ n3 = 0x2 then .ok (.BitAnd (nibble opcode 1) (nibble opcode 2))
  else if n0 = 0x8 ∧ n3 = 0x3 then .ok (.BitXor (nibble opcode 1) (nibble opcode 2))
  else if n0 = 0x8 ∧ n3 = 0x6 then .ok (.Shr (nibble opcode 1))
  else if n0 = 0x8 ∧ n3 = 0xE then .ok (.Shl (nibble opcode 1))
  else if n0 = 0x8 ∧ n3 = 0x4 then .ok (.Add (nibble opcode 1) (nibble opcode 2))
  else if n0 = 0x8 ∧ n3 = 0x5 then .ok (.Sub (nibble opcode 1) (nibble opcode 2))
  else if n0 = 0x8 ∧ n3 = 0x7 then .ok (.InverseSub (nibble opcode 1) (nibble opcode 2))
  else if n0 = 0xC then .ok (.Rand (nibble opcode 1) (nibbles opcode 2 3))
  else if n0 = 0xF ∧ n2 = 0x3 ∧ n3 = 0x3 then .ok (.BCD (nibble opcode 1))
  else if n0 = 0x3 then .ok (.SkipEqConst (nibble opcode 1) (nibbles opcode 2 3))
  else if n0 = 0x4 then .ok (.SkipNeqConst (nibble opcode 1) (nibbles opcode 2 3))
  else if n0 = 0x5 ∧ n3 = 0x0 then .ok (.SkipEq (nibble opcode 1) (nibble opcode 2))
  else if n0 = 0x9 ∧ n3 = 0x0 then .ok (.SkipNeq (nibble opcode 1) (nibble opcode 2))
  else if n0 = 0xF ∧ n2 = 0x5 ∧ n3 = 0x5 then .ok (.RegDump (nibble opcode 1))
  else if n0 = 0xF ∧ n2 = 0x6 ∧ n3 = 0x5 then .ok (.RegLoad (nibble opcode 1))
  else if n0 = 0xA then .ok (.SetIndex (opcode &&& 0x0FFF))
  else if n0 = 0xF ∧ n2 = 0x1 ∧ n3 = 0xE then .ok (.AddIndex (nibble opcode 1))
  else if n0 = 0xF ∧ n2 = 0x2 ∧ n3 = 0x9 then .ok (.SetIndexChar (nibble opcode 1))
  else if n0 = 0xF ∧ n2 = 0x0 ∧ n3 = 0x7 then .ok (.GetDelay (nibble opcode 1))
  else if n0 = 0xF ∧ n2 = 0x1 ∧ n3 = 0x5 then .ok (.SetDelay (nibble opcode 1))
  else if n0 = 0xF ∧ n2 = 0x0 ∧ n3 = 0xA then .ok (.WaitKey (nibble opcode 1))
  else if n0 = 0xE ∧ n2 = 0x9 ∧ n3 = 0xE then .ok (.SkipKey (nibble opcode 1))
  else if n0 = 0xE ∧ n2 = 0xA ∧ n3 = 0x1 then .ok (.SkipNotKey (nibble opcode 1))
  else if n0 = 0xF ∧ n2 = 0x1 ∧ n3 = 0x8 then .ok (.SetSound (nibble opcode 1))
  else if n0 = 0xD then
    .ok (.Draw (nibble opcode 1) (nibble opcode 2) (nibble opcode 3))
  else if n0 = 0x0 ∧ n1 = 0x0 ∧ n2 = 0xE ∧ n3 = 0x0 then .ok .ClearScreen
  else .error (.InvalidOpcode (formatHex4 opcode))

/-- `bcd` from utils.rs: the three decimal digits of a byte, most
significant first. -/
def bcd (num : Nat) : List Nat :=
  [num / 100 % 10, num / 10 % 10, num % 10]

/-- Functional update of an array modelled as a total function: the
single-cell write `arr[i] = v`. -/
def updFn (f : Nat → Nat) (i : Nat) (v : Nat) : Nat → Nat :=
  fun j => if j = i then v else f j

/-- `dst[start..start + src.len()].copy_from_slice(src)` on an array
modelled as a total function. -/
def copyFromSlice (f : Nat → Nat) (start : Nat) : List Nat → (Nat → Nat)
  | [] => f
  | v :: vs => copyFromSlice (updFn f start v) (start + 1) vs

/-- The register file of register.rs: 16 general-purpose 8-bit registers
(modelled as a total function holding bytes), the 16-bit index register
and the 16-bit program counter. -/
structure Registers where
  general : Nat → Nat
  index : Nat
  program_counter : Nat

/-- `Registers::new`. -/
def Registers.new : Registers :=
  { general := fun _ => 0, index := 0, program_counter := PROGRAM_START }

/-- `Registers::set`. -/
def Registers.set (r : Registers) (id : Nat) (value : Nat) : Registers :=
  { r with general := updFn r.general id value }

/-- `Registers::get`. -/
def Registers.get (r : Registers) (id : Nat) : Nat :=
  r.general id

/-- `Registers::get_u16` (a u8 → u16 cast, the identity on `Nat`). -/
def Registers.get_u16 (r : Registers) (id : Nat) : Nat :=
  r.general id

/-- The I/O state of io.rs: the pixel array (row-major, `PIXELS` cells,
modelled as a total function), the redraw flag, and the 16-key keyboard
snapshot. -/
structure Io where
  pixels : Nat → Bool
  draw_flag : Bool
  keys : Nat → Bool

/-- `Io::new`. -/
def Io.new : Io :=
  { pixels := fun _ => false, draw_flag := true, keys := fun _ => false }

/-- `Io::clear_screen`. -/
def Io.clear_screen (io : Io) : Io :=
  { io with pixels := fun _ => false, draw_flag := true }

/-- `Io::is_key_pressed`. -/
def Io.is_key_pressed (io : Io) (key : Nat) : Bool :=
  io.keys key

/-- `Io::set_draw_flag`. -/
def Io.set_draw_flag (io : Io) : Io :=
  { io with draw_flag := true }

/-- `Io::set_keys`. -/
def Io.set_keys (io : Io) (keys : Nat → Bool) : Io :=
  { io with keys := keys }

/-- The machine state of lib.rs (`struct Chip8`).  The `log` toggle only
controls `info!` logging and is not modelled. -/
structure Chip8 where
  memory : Nat → Nat
  stack : List Nat
  registers : Registers
  io : Io
  delay_timer : Nat
  sound_timer : Nat
  program_ended : Bool

/-- The external `Chip8IO` capability, as consumed by one cycle: the
keyboard snapshot `get_keys` returns, the key index the blocking
`Io::wait_key` poll loop eventually returns (its unbounded polling loop is
modelled by its result), and the byte `rand::random::<u8>()` yields. -/
structure CycleInput where
  keys : Nat → Bool
  wait_key_result : Nat
  rand_byte : Nat

/-- One column of the `Draw` inner loop (cpu.rs lines 250-271), at bit
position `bit` of the sprite row stored at memory address `i` being drawn
at row `y + line`: bounds-check the pixel, record a set→unset transition
in VF, and store the sprite bit into the pixel (the source assigns
`*screen_pixel = mem_pixel > 0`).  The `% 256` on the coordinate sums are
the u8 additions `x + bit` / `y + line`. -/
def drawBit (mem : Nat → Nat) (i : Nat) (x : Nat) (y : Nat) (line : Nat)
    (bit : Nat) (st : Io × Registers) : Except ErrorKind (Io × Registers) :=
  let io := st.1
  let reg := st.2
  let mem_pixel := (mem i) &&& (128 >>> bit)
  let pixel_x := (x + bit) % 256
  let pixel_y := (y + line) % 256
  let pixel_index := pixel_x + pixel_y * SCREEN_WIDTH
  if pixel_x ≥ SCREEN_WIDTH ∨ pixel_y ≥ SCREEN_HEIGHT then
    .error (.PixelOutOfBounds pixel_x pixel_y)
  else
    let screen_pixel := io.pixels pixel_index
    let reg := if screen_pixel ∧ mem_pixel = 0 then reg.set 0xF 1 else reg
    let io := { io with
                pixels := fun j => if j = pixel_index then decide (mem_pixel > 0)
                                   else io.pixels j }
    .ok (io, reg)

/-- Left fold with early error exit, used for the `Draw` loops (each of
which `bail!`s out of the whole cycle on a bounds failure). -/
def foldE (f : Nat → α → Except ε α) (init : α) : List Nat → Except ε α
  | [] => .ok init
  | n :: ns =>
    match f n init with
    | .error e => .error e
    | .ok a => foldE f a ns

/-- One row of the `Draw` loop (cpu.rs lines 242-272): bounds-check the
sprite address `index + line` (a u16 sum) against memory, then draw its
8 bits. -/
def drawLine (mem : Nat → Nat) (index : Nat) (x : Nat) (y : Nat)
    (line : Nat) (st : Io × Registers) : Except ErrorKind (Io × Registers) :=
  let i := (index + line) % 65536
  if i ≥ MEMORY then
    .error (.InvalidAddress i "Draw")
  else
    foldE (drawBit mem i x y line) st (List.range 8)

/-- The instruction-semantics `match` of `Chip8::cycle` (cpu.rs lines
46-277).  Returns the mutated machine together with the `increment_pc`
flag (true unless the instruction suppressed the default advance).
`pc` reads the program counter as it was at the start of the cycle. -/
def execute (instr : Instruction) (s : Chip8) (inp : CycleInput) :
    Except ErrorKind (Chip8 × Bool) :=
  let pc := s.registers.program_counter
  match instr with
  | .Return =>
    match s.stack with
    | addr :: rest =>
      .ok ({ s with
             stack := rest
             registers := { s.registers with program_counter := addr } }, true)
    | [] => .ok (s, true)
  | .Goto addr =>
    if addr ≥ MEMORY then .error (.InvalidAddress addr "Goto")
    else
      .ok ({ s with registers := { s.registers with program_counter := addr } },
           false)
  | .Call addr =>
    if addr ≥ MEMORY then .error (.InvalidAddress addr "Call")
    else
      .ok ({ s with
             stack := pc :: s.stack
             registers := { s.registers with program_counter := addr } }, false)
  | .OffsetGoto addr =>
    let v0 := s.registers.get_u16 0
    if (v0 + addr) % 65536 ≥ MEMORY then .error (.InvalidAddress addr "OffsetGoto")
    else
      .ok ({ s with registers :=
               { s.registers with program_counter := (addr + v0) % 65536 } },
           false)
  | .SetConst x n => .ok ({ s with registers := s.registers.set x n }, true)
  | .AddConst x n =>
    let val := (s.registers.get x + n) % 256
    .ok ({ s with registers := s.registers.set x val }, true)
  | .Move x y =>
    let val := s.registers.get y
    .ok ({ s with registers := s.registers.set x val }, true)
  | .BitOr x y =>
    let val := (s.registers.get x) ||| (s.registers.get y)
    .ok ({ s with registers := s.registers.set x val }, true)
  | .BitAnd x y =>
    let val := (s.registers.get x) &&& (s.registers.get y)
    .ok ({ s with registers := s.registers.set x val }, true)
  | .BitXor x y =>
    let val := (s.registers.get x) ^^^ (s.registers.get y)
    .ok ({ s with registers := s.registers.set x val }, true)
  | .Shr x_id =>
    let x := s.registers.get x_id
    let val := x >>> 1
    let r := (s.registers.set x_id val).set 0xF (x &&& 1)
    .ok ({ s with registers := r }, true)
  | .Shl x_id =>
    let x := s.registers.get x_id
    let val := (x <<< 1) % 256
    let r := (s.registers.set x_id val).set 0xF ((x &&& 0x80) >>> 7)
    .ok ({ s with registers := r }, true)
  | .Add x_id y =>
    let x := s.registers.get x_id
    let y := s.registers.get y
    let r := (s.registers.set x_id ((x + y) % 256)).set 0xF
               (if x + y > 255 then 1 else 0)
    .ok ({ s with registers := r }, true)
  | .Sub x_id y =>
    let x := s.registers.get x_id
    let y := s.registers.get y
    let r := (s.registers.set x_id ((x + 256 - y) % 256)).set 0xF
               (if x < y then 1 else 0)
    .ok ({ s with registers := r }, true)
  | .InverseSub x_id y =>
    let x := s.registers.get x_id
    let y := s.registers.get y
    let r := (s.registers.set x_id ((y + 256 - x) % 256)).set 0xF
               (if y < x then 1 else 0)
    .ok ({ s with registers := r }, true)
  | .Rand x n =>
    .ok ({ s with registers := s.registers.set x (inp.rand_byte &&& n) }, true)
  | .BCD a =>
    let a := s.registers.get a
    let i := s.registers.index
    if i + 2 ≥ MEMORY then .error (.InvalidAddress i "BCD")
    else .ok ({ s with memory := copyFromSlice s.memory i (bcd a) }, true)
  | .SkipEqConst x n =>
    if s.registers.get x = n then
      .ok ({ s with registers :=
               { s.registers with program_counter := (pc + 2) % 65536 } }, true)
    else .ok (s, true)
  | .SkipNeqConst x n =>
    if s.registers.get x ≠ n then
      .ok ({ s with registers :=
               { s.registers with program_counter := (pc + 2) % 65536 } }, true)
    else .ok (s, true)
  | .SkipEq x y =>
    if s.registers.get x = s.registers.get y then
      .ok ({ s with registers :=
               { s.registers with program_counter := (pc + 2) % 65536 } }, true)
    else .ok (s, true)
  | .SkipNeq x y =>
    if s.registers.get x ≠ s.registers.get y then
      .ok ({ s with registers :=
               { s.registers with program_counter := (pc + 2) % 65536 } }, true)
    else .ok (s, true)
  | .RegDump x =>
    let i := s.registers.index
    if i + x ≥ MEMORY then .error (.InvalidAddress i "RegDump")
    else
      let src := (List.range (x + 1)).map s.registers.general
      .ok ({ s with memory := copyFromSlice s.memory i src }, true)
  | .RegLoad x =>
    let i := s.registers.index
    if i + x ≥ MEMORY then .error (.InvalidAddress i "RegLoad")
    else
      let general := fun j => if j < x + 1 then s.memory (i + j)
                              else s.registers.general j
      .ok ({ s with registers := { s.registers with general := general } }, true)
  | .SetIndex addr =>
    .ok ({ s with registers := { s.registers with index := addr } }, true)
  | .AddIndex x =>
    .ok ({ s with registers :=
             { s.registers with
               index := (s.registers.index + s.registers.get_u16 x) % 65536 } },
         true)
  | .SetIndexChar x =>
    let x := s.registers.get_u16 x
    if x > 15 then .error (.UnknownCharacter (x % 256))
    else
      .ok ({ s with registers :=
               { s.registers with index := FONTSET_START + 5 * x } }, true)
  | .GetDelay x =>
    .ok ({ s with registers := s.registers.set x s.delay_timer }, true)
  | .SetDelay x => .ok ({ s with delay_timer := s.registers.get x }, true)
  | .WaitKey x =>
    let key := inp.wait_key_result
    .ok ({ s with registers := s.registers.set x key }, true)
  | .SkipKey x =>
    let x := s.registers.get x
    if x > 15 then .error (.UnknownKey x "SkipKey")
    else if s.io.is_key_pressed x then
      .ok ({ s with registers :=
               { s.registers with program_counter := (pc + 2) % 65536 } }, true)
    else .ok (s, true)
  | .SkipNotKey x =>
    let x := s.registers.get x
    if x > 15 then .error (.UnknownKey x "SkipNotKey")
    else if ¬ s.io.is_key_pressed x then
      .ok ({ s with registers :=
               { s.registers with program_counter := (pc + 2) % 65536 } }, true)
    else .ok (s, true)
  | .SetSound x => .ok ({ s with sound_timer := s.registers.get x }, true)
  | .Draw x y height =>
    let x := s.registers.get x
    let y := s.registers.get y
    let index := s.registers.index
    let reg := s.registers.set 0xF 0
    match foldE (drawLine s.memory index x y) (s.io, reg) (List.range height) with
    | .error e => .error e
    | .ok (io, reg) =>
      .ok ({ s with io := io.set_draw_flag, registers := reg }, true)
  | .ClearScreen => .ok ({ s with io := s.io.clear_screen }, true)

/-- The big-endian opcode fetch of cpu.rs line 31:
`(memory[pc] as u16) << 8 | memory[pc + 1] as u16`. -/
def fetch (s : Chip8) : Nat :=
  ((s.memory s.registers.program_counter) <<< 8) |||
    (s.memory (s.registers.program_counter + 1))

/-- `Chip8::cycle` (cpu.rs): one fetch-decode-execute cycle.  Returns the
post-state together with the number of times `io.draw` was invoked.  If
the program counter has no valid 2-byte opcode (`memory.get(pc + 1)` is
`None`, i.e. `pc + 1 ≥ MEMORY`), the program is marked ended and nothing
else happens.  A decode failure aborts the cycle with the decoder's error.
After a successful instruction, the pixel buffer is flushed through
`io.draw` exactly when the redraw flag is set, and the program counter is
advanced by 2 (a u16 addition) unless the instruction suppressed it. -/
def cycle (s : Chip8) (inp : CycleInput) : Except ErrorKind (Chip8 × Nat) :=
  let pc := s.registers.program_counter
  if pc + 1 ≥ MEMORY then
    .ok ({ s with program_ended := true }, 0)
  else
    match interpret_instruction (fetch s) with
    | .error e => .error e
    | .ok instr =>
      let s1 := { s with io := s.io.set_keys inp.keys }
      match execute instr s1 inp with
      | .error e => .error e
      | .ok (s2, increment) =>
        let draws := if s2.io.draw_flag then 1 else 0
        let s3 :=
          if increment then
            { s2 with registers :=
                { s2.registers with
                  program_counter := (s2.registers.program_counter + 2) % 65536 } }
          else s2
        .ok (s3, draws)

/-- `Chip8::new` (lib.rs lines 184-212): zero memory, load the fontset at
`FONTSET_START`, reject programs of length at least
`MEMORY - PROGRAM_START`, and load the program at `PROGRAM_START`.  The
source's `ProgramTooLarge` is built as
`ProgramTooLarge(program_memory_size, program.len())`. -/
def Chip8.new (program : List Nat) : Except ErrorKind Chip8 :=
  let memory0 : Nat → Nat := fun _ => 0
  let memory1 := copyFromSlice memory0 FONTSET_START FONTSET
  let program_memory_size := MEMORY - PROGRAM_START
  if program.length ≥ program_memory_size then
    .error (.ProgramTooLarge program_memory_size program.length)
  else
    .ok { memory := copyFromSlice memory1 PROGRAM_START program,
          stack := [],
          registers := Registers.new,
          io := Io.new,
          delay_timer := 0,
          sound_timer := 0,
          program_ended := false }

/-- Statement helper: the decoder either succeeds — with every jump
target (`Goto`, `Call`, `OffsetGoto`) equal to the masked low 12 bits of
the opcode — or fails with `InvalidOpcode` carrying the opcode's hex
text, never with any other error kind. -/
def decodeOk (o : Nat) : Bool :=
  match interpret_instruction o with
  | .ok (.Goto a) => decide (a = o &&& 0x0FFF)
  | .ok (.Call a) => decide (a = o &&& 0x0FFF)
  | .ok (.OffsetGoto a) => decide (a = o &&& 0xFFF)
  | .ok _ => true
  | .error (.InvalidOpcode t) => decide (t = formatHex4 o)
  | .error _ => false

/-- The low-byte suffixes recognized below opcodes with high nibble 0xF. -/
def fSuffixes : List Nat := [0x07, 0x0A, 0x15, 0x18, 0x1E, 0x29, 0x33, 0x55, 0x65]

/-- Projection: the machine state of a successful cycle result (defaulting
to `d` on error), used to write closed concrete statements. -/
def resState (r : Except ErrorKind (Chip8 × Nat)) (d : Chip8) : Chip8 :=
  match r with
  | .ok (s, _) => s
  | .error _ => d

/-- Projection: the number of `io.draw` invocations of a successful cycle
result. -/
def resCount (r : Except ErrorKind (Chip8 × Nat)) : Nat :=
  match r with
  | .ok (_, n) => n
  | .error _ => 0

/-- A `CycleInput` with no keys pressed. -/
def quietInput : CycleInput :=
  { keys := fun _ => false, wait_key_result := 0, rand_byte := 0 }

/-- A machine state built directly from its parts, with empty I/O state,
zero timers, and the program not ended; used for concrete test states. -/
def mkState (mem : Nat → Nat) (stack : List Nat) (general : Nat → Nat)
    (index : Nat) (pc : Nat) : Chip8 :=
  { memory := mem, stack := stack,
    registers := { general := general, index := index, program_counter := pc },
    io := Io.new, delay_timer := 0, sound_timer := 0, program_ended := false }

/-- Whether a cycle result is a success. -/
def isOk : Except ErrorKind (Chip8 × Nat) → Bool
  | .ok _ => true
  | .error _ => false

instance instDecEqExcept {ε α : Type} [DecidableEq ε] [DecidableEq α] :
    DecidableEq (Except ε α) := fun a b =>
  match a, b with
  | .ok a, .ok b =>
    if h : a = b then isTrue (by rw [h])
    else isFalse (fun hc => by cases hc; exact h rfl)
  | .error a, .error b =>
    if h : a = b then isTrue (by rw [h])
    else isFalse (fun hc => by cases hc; exact h rfl)
  | .ok _, .error _ => isFalse (fun hc => by cases hc)
  | .error _, .ok _ => isFalse (fun hc => by cases hc)

/-! Concrete machine states used by counterexamples and witnesses. -/

/-- Memory with sprite byte 0x80 at address 0 and the opcode 0xD011
(`Draw V0 V1 1`) at 0x200. -/
def drawMem : Nat → Nat :=
  copyFromSlice (updFn (fun _ => 0) 0 0x80) 0x200 [0xD0, 0x11]

/-- Machine about to execute `Draw V0,V1,1` with V0 = V1 = 0, I = 0. -/
def drawState : Chip8 := mkState drawMem [] (fun _ => 0) 0 0x200

/-- The machine after the first draw. -/
def drawOnce : Chip8 := resState (cycle drawState quietInput) drawState

/-- The machine after the first draw, with the program counter moved back
to the same `Draw` instruction (sprite memory and registers unchanged). -/
def drawBack : Chip8 :=
  { drawOnce with registers := { drawOnce.registers with program_counter := 0x200 } }

/-- The machine after drawing the same sprite twice at the same spot. -/
def drawTwice : Chip8 := resState (cycle drawBack quietInput) drawBack

/-- Memory with the opcode 0x8015 (`Sub V0 V1`) at 0x200. -/
def subProgMem : Nat → Nat := copyFromSlice (fun _ => 0) 0x200 [0x80, 0x15]

/-- Registers with V0 = a and V1 = b. -/
def subRegs (a b : Nat) : Nat → Nat := updFn (updFn (fun _ => 0) 0 a) 1 b

/-- Machine about to execute `Sub V0,V1` with V0 = a, V1 = b. -/
def subState (a b : Nat) : Chip8 := mkState subProgMem [] (subRegs a b) 0 0x200

/-- Memory with the opcode 0x00EE (`Return`) at 0x200. -/
def retMem : Nat → Nat := copyFromSlice (fun _ => 0) 0x200 [0x00, 0xEE]

/-- Machine about to execute `Return` with return address 0x300 stacked. -/
def retState : Chip8 := mkState retMem [0x300] (fun _ => 0) 0 0x200

/-- Machine about to execute `Return` with an empty stack. -/
def retEmptyState : Chip8 := mkState retMem [] (fun _ => 0) 0 0x200

/-- Machine about to execute the 2-byte opcode b0 b1 at 0x200 with the
given register file. -/
def opState (b0 b1 : Nat) (regs : Nat → Nat) : Chip8 :=
  mkState (copyFromSlice (fun _ => 0) 0x200 [b0, b1]) [] regs 0 0x200

/-- Machine about to execute `BCD V0` with V0 = 255 and I = i. -/
def bcdState (i : Nat) : Chip8 :=
  mkState (copyFromSlice (fun _ => 0) 0x200 [0xF0, 0x33]) []
    (updFn (fun _ => 0) 0 255) i 0x200

/-- The machine a successful construction returns (a dummy on failure). -/
def newChip (program : List Nat) : Chip8 :=
  match Chip8.new program with
  | .ok c => c
  | .error _ => mkState (fun _ => 0) [] (fun _ => 0) 0 0

/-- Machine about to run 0x3007 (`SkipEqConst V0 7`) with V0 = 7. -/
def skipEqSt : Chip8 := opState 0x30 0x07 (updFn (fun _ => 0) 0 7)

/-- Machine about to run 0x4007 (`SkipNeqConst V0 7`) with V0 = 7. -/
def skipNeqSt : Chip8 := opState 0x40 0x07 (updFn (fun _ => 0) 0 7)

/-- Machine about to run 0x5010 (`SkipEq V0 V1`) with V0 = V1 = 0. -/
def skipEqRRSt : Chip8 := opState 0x50 0x10 (fun _ => 0)

/-- Machine about to run 0x9010 (`SkipNeq V0 V1`) with V0 = V1 = 0. -/
def skipNeqRRSt : Chip8 := opState 0x90 0x10 (fun _ => 0)

/-- Machine about to run 0x1300 (`Goto 0x300`). -/
def gotoState : Chip8 := opState 0x13 0x00 (fun _ => 0)

/-- Machine about to run 0x2300 (`Call 0x300`). -/
def callState : Chip8 := opState 0x23 0x00 (fun _ => 0)

/-! ## Helper lemmas -/

theorem land_div_pow (a b k : Nat) :
    (a &&& b) / 2 ^ k = (a / 2 ^ k) &&& (b / 2 ^ k) := by
  induction k with
  | zero => simp
  | succ k ih =>
    rw [pow_succ, ← Nat.div_div_eq_div_mul, ih, Nat.and_div_two,
        Nat.div_div_eq_div_mul, Nat.div_div_eq_div_mul, ← pow_succ]

theorem nibble_zero (o : Nat) : nibble o 0 = o / 4096 % 16 := by
  show ((o &&& ((0xFFFF - (16 ^ (4 - 1) - 1)) >>> (0 * 4))) >>> (4 * (4 - (0 + 1)))) % 256 = _
  norm_num [Nat.shiftRight_eq_div_pow]
  rw [show (4096:Nat) = 2 ^ 12 from by norm_num, land_div_pow]
  norm_num
  rw [show (15:Nat) = 2 ^ 4 - 1 from by norm_num, Nat.and_pow_two_sub_one_eq_mod]
  omega

theorem nibble_one (o : Nat) : nibble o 1 = o / 256 % 16 := by
  show ((o &&& ((0xFFFF - (16 ^ (4 - 1) - 1)) >>> (1 * 4))) >>> (4 * (4 - (1 + 1)))) % 256 = _
  norm_num [Nat.shiftRight_eq_div_pow]
  rw [show (256:Nat) = 2 ^ 8 from by norm_num, land_div_pow]
  norm_num
  rw [show (15:Nat) = 2 ^ 4 - 1 from by norm_num, Nat.and_pow_two_sub_one_eq_mod]
  omega

theorem nibble_two (o : Nat) : nibble o 2 = o / 16 % 16 := by
  show ((o &&& ((0xFFFF - (16 ^ (4 - 1) - 1)) >>> (2 * 4))) >>> (4 * (4 - (2 + 1)))) % 256 = _
  norm_num [Nat.shiftRight_eq_div_pow]
  rw [show (16:Nat) = 2 ^ 4 from by norm_num, land_div_pow]
  norm_num
  rw [show (15:Nat) = 2 ^ 4 - 1 from by norm_num, Nat.and_pow_two_sub_one_eq_mod]
  omega

theorem nibble_three (o : Nat) : nibble o 3 = o % 16 := by
  show ((o &&& ((0xFFFF - (16 ^ (4 - 1) - 1)) >>> (3 * 4))) >>> (4 * (4 - (3 + 1)))) % 256 = _
  norm_num [Nat.shiftRight_eq_div_pow]
  rw [show (15:Nat) = 2 ^ 4 - 1 from by norm_num, Nat.and_pow_two_sub_one_eq_mod]
  omega

theorem nibbles_two_three (o : Nat) : nibbles o 2 3 = o % 256 := by
  show ((o &&& ((0xFFFF - (16 ^ (4 - 2) - 1)) >>> (2 * 4))) >>> (4 * (4 - (3 + 1)))) % 256 = _
  norm_num [Nat.shiftRight_eq_div_pow]
  rw [show (255:Nat) = 2 ^ 8 - 1 from by norm_num, Nat.and_pow_two_sub_one_eq_mod]
  omega

set_option maxHeartbeats 2000000 in
theorem decodeOk_true (o : Nat) : decodeOk o = true := by
  unfold decodeOk interpret_instruction
  dsimp only
  rw [nibble_zero, nibble_one, nibble_two, nibble_three, nibbles_two_three]
  have l0 : o / 4096 % 16 < 16 := Nat.mod_lt _ (by norm_num)
  set k0 := o / 4096 % 16 with hk0
  clear_value k0
  interval_cases k0 <;> (try simp) <;> (try split_ifs) <;> simp_all

theorem interpret_total (o : Nat) :
    interpret_instruction o = .error (.InvalidOpcode (formatHex4 o)) ∨
    ∃ i, interpret_instruction o = .ok i := by
  have h := decodeOk_true o
  unfold decodeOk at h
  cases hi : interpret_instruction o with
  | ok i => exact Or.inr ⟨i, rfl⟩
  | error e =>
    rw [hi] at h
    cases e <;> simp_all

theorem goto_addr_eq (o a : Nat) (h : interpret_instruction o = .ok (.Goto a)) :
    a = o &&& 0x0FFF ∧ a < 4096 := by
  have hd := decodeOk_true o
  unfold decodeOk at hd
  rw [h] at hd
  simp only [decide_eq_true_eq] at hd
  exact ⟨hd, hd ▸ Nat.lt_of_le_of_lt Nat.and_le_right (by norm_num)⟩

theorem call_addr_eq (o a : Nat) (h : interpret_instruction o = .ok (.Call a)) :
    a = o &&& 0x0FFF ∧ a < 4096 := by
  have hd := decodeOk_true o
  unfold decodeOk at hd
  rw [h] at hd
  simp only [decide_eq_true_eq] at hd
  exact ⟨hd, hd ▸ Nat.lt_of_le_of_lt Nat.and_le_right (by norm_num)⟩

theorem offset_goto_addr_eq (o a : Nat)
    (h : interpret_instruction o = .ok (.OffsetGoto a)) :
    a = o &&& 0xFFF ∧ a < 4096 := by
  have hd := decodeOk_true o
  unfold decodeOk at hd
  rw [h] at hd
  simp only [decide_eq_true_eq] at hd
  exact ⟨hd, hd ▸ Nat.lt_of_le_of_lt Nat.and_le_right (by norm_num)⟩

theorem goto_decode (n : Nat) (hn : n < 4096) :
    interpret_instruction (0x1000 + n) = .ok (.Goto n) := by
  have h0 : nibble (0x1000 + n) 0 = 1 := by rw [nibble_zero]; omega
  have hm : (0x1000 + n) &&& 0x0FFF = n := by
    rw [show (0x0FFF:Nat) = 2 ^ 12 - 1 from by norm_num,
        Nat.and_pow_two_sub_one_eq_mod]
    omega
  unfold interpret_instruction
  dsimp only
  rw [h0, hm]
  norm_num

theorem shr_decode (x y : Nat) (hx : x < 16) (hy : y < 16) :
    interpret_instruction (0x8006 + 256 * x + 16 * y) = .ok (.Shr x) := by
  have h0 : nibble (0x8006 + 256 * x + 16 * y) 0 = 8 := by rw [nibble_zero]; omega
  have h1 : nibble (0x8006 + 256 * x + 16 * y) 1 = x := by rw [nibble_one]; omega
  have h3 : nibble (0x8006 + 256 * x + 16 * y) 3 = 6 := by rw [nibble_three]; omega
  unfold interpret_instruction
  dsimp only
  rw [h0, h1, h3]
  norm_num

set_option maxHeartbeats 2000000 in
theorem invalid_f_decode (x b : Nat) (hx : x < 16) (hb : b < 256)
    (hs : b ∉ fSuffixes) :
    interpret_instruction (0xF000 + 256 * x + b) =
      .error (.InvalidOpcode (formatHex4 (0xF000 + 256 * x + b))) := by
  have h0 : nibble (0xF000 + 256 * x + b) 0 = 15 := by rw [nibble_zero]; omega
  have h2 : nibble (0xF000 + 256 * x + b) 2 = b / 16 % 16 := by rw [nibble_two]; omega
  have h3 : nibble (0xF000 + 256 * x + b) 3 = b % 16 := by rw [nibble_three]; omega
  simp only [fSuffixes, List.mem_cons, List.not_mem_nil, or_false, not_or] at hs
  unfold interpret_instruction
  dsimp only
  rw [h0, h2, h3]
  norm_num
  split_ifs <;> first | rfl | (exfalso; omega)

theorem return_semantics (s : Chip8) (inp : CycleInput)
    (hpc : s.registers.program_counter + 1 < MEMORY)
    (hdec : interpret_instruction (fetch s) = .ok .Return) :
    ∃ s2 n, cycle s inp = .ok (s2, n) ∧
      (s.stack = [] →
        s2.registers.program_counter = s.registers.program_counter + 2 ∧
        s2.stack = []) ∧
      (∀ a rest, s.stack = a :: rest →
        s2.registers.program_counter = (a + 2) % 65536 ∧ s2.stack = rest) := by
  have hM : MEMORY = 4096 := rfl
  unfold cycle
  dsimp only
  rw [if_neg (by omega), hdec]
  unfold execute
  dsimp only
  cases hst : s.stack with
  | nil =>
    refine ⟨_, _, rfl, ?_, ?_⟩
    · intro _
      refine ⟨?_, rfl⟩
      rw [if_pos rfl]
      dsimp only
      omega
    · intro a rest hco
      cases hco
  | cons a rest =>
    refine ⟨_, _, rfl, ?_, ?_⟩
    · intro hnil
      cases hnil
    · intro a2 rest2 hco
      injection hco with h1 h2
      subst h1
      subst h2
      exact ⟨rfl, rfl⟩

theorem skipEqConst_sem (s : Chip8) (inp : CycleInput) (x n : Nat)
    (hpc : s.registers.program_counter + 1 < MEMORY)
    (hdec : interpret_instruction (fetch s) = .ok (.SkipEqConst x n)) :
    ∃ s2 d, cycle s inp = .ok (s2, d) ∧
      s2.registers.program_counter =
        s.registers.program_counter +
          (if s.registers.general x = n then 4 else 2) := by
  have hM : MEMORY = 4096 := rfl
  unfold cycle
  dsimp only
  rw [if_neg (by omega), hdec]
  unfold execute
  dsimp only [Registers.get]
  by_cases hc : s.registers.general x = n
  · rw [if_pos hc, if_pos hc]
    refine ⟨_, _, rfl, ?_⟩
    rw [if_pos rfl]
    dsimp only
    omega
  · rw [if_neg hc, if_neg hc]
    refine ⟨_, _, rfl, ?_⟩
    rw [if_pos rfl]
    dsimp only
    omega

theorem skipNeqConst_sem (s : Chip8) (inp : CycleInput) (x n : Nat)
    (hpc : s.registers.program_counter + 1 < MEMORY)
    (hdec : interpret_instruction (fetch s) = .ok (.SkipNeqConst x n)) :
    ∃ s2 d, cycle s inp = .ok (s2, d) ∧
      s2.registers.program_counter =
        s.registers.program_counter +
          (if s.registers.general x ≠ n then 4 else 2) := by
  have hM : MEMORY = 4096 := rfl
  unfold cycle
  dsimp only
  rw [if_neg (by omega), hdec]
  unfold execute
  dsimp only [Registers.get]
  by_cases hc : s.registers.general x = n
  · rw [if_neg (not_not_intro hc), if_neg (not_not_intro hc)]
    refine ⟨_, _, rfl, ?_⟩
    rw [if_pos rfl]
    dsimp only
    omega
  · rw [if_pos hc, if_pos hc]
    refine ⟨_, _, rfl, ?_⟩
    rw [if_pos rfl]
    dsimp only
    omega

theorem skipEq_sem (s : Chip8) (inp : CycleInput) (x y : Nat)
    (hpc : s.registers.program_counter + 1 < MEMORY)
    (hdec : interpret_instruction (fetch s) = .ok (.SkipEq x y)) :
    ∃ s2 d, cycle s inp = .ok (s2, d) ∧
      s2.registers.program_counter =
        s.registers.program_counter +
          (if s.registers.general x = s.registers.general y then 4 else 2) := by
  have hM : MEMORY = 4096 := rfl
  unfold cycle
  dsimp only
  rw [if_neg (by omega), hdec]
  unfold execute
  dsimp only [Registers.get]
  by_cases hc : s.registers.general x = s.registers.general y
  · rw [if_pos hc, if_pos hc]
    refine ⟨_, _, rfl, ?_⟩
    rw [if_pos rfl]
    dsimp only
    omega
  · rw [if_neg hc, if_neg hc]
    refine ⟨_, _, rfl, ?_⟩
    rw [if_pos rfl]
    dsimp only
    omega

theorem skipNeq_sem (s : Chip8) (inp : CycleInput) (x y : Nat)
    (hpc : s.registers.program_counter + 1 < MEMORY)
    (hdec : interpret_instruction (fetch s) = .ok (.SkipNeq x y)) :
    ∃ s2 d, cycle s inp = .ok (s2, d) ∧
      s2.registers.program_counter =
        s.registers.program_counter +
          (if s.registers.general x ≠ s.registers.general y then 4 else 2) := by
  have hM : MEMORY = 4096 := rfl
  unfold cycle
  dsimp only
  rw [if_neg (by omega), hdec]
  unfold execute
  dsimp only [Registers.get]
  by_cases hc : s.registers.general x = s.registers.general y
  · rw [if_neg (not_not_intro hc), if_neg (not_not_intro hc)]
    refine ⟨_, _, rfl, ?_⟩
    rw [if_pos rfl]
    dsimp only
    omega
  · rw [if_pos hc, if_pos hc]
    refine ⟨_, _, rfl, ?_⟩
    rw [if_pos rfl]
    dsimp only
    omega

theorem bcd_cycle_sem (s : Chip8) (inp : CycleInput) (r : Nat)
    (hpc : s.registers.program_counter + 1 < MEMORY)
    (hdec : interpret_instruction (fetch s) = .ok (.BCD r)) :
    (s.registers.index + 2 < MEMORY →
      ∃ s2 d, cycle s inp = .ok (s2, d) ∧
        s2.memory s.registers.index = s.registers.general r / 100 % 10 ∧
        s2.memory (s.registers.index + 1) = s.registers.general r / 10 % 10 ∧
        s2.memory (s.registers.index + 2) = s.registers.general r % 10) ∧
    (s.registers.index + 2 ≥ MEMORY →
      cycle s inp = .error (.InvalidAddress s.registers.index "BCD")) := by
  have hM : MEMORY = 4096 := rfl
  constructor
  · intro hidx
    unfold cycle
    dsimp only
    rw [if_neg (by omega), hdec]
    unfold execute
    dsimp only [Registers.get]
    rw [if_neg (by omega)]
    refine ⟨_, _, rfl, ?_, ?_, ?_⟩ <;>
      · rw [if_pos rfl]
        dsimp only
        simp only [bcd, copyFromSlice, updFn]
        repeat rw [if_neg (by omega)]
        simp
  · intro hidx
    unfold cycle
    dsimp only
    rw [if_neg (by omega), hdec]
    unfold execute
    dsimp only [Registers.get]
    rw [if_pos (by omega)]

theorem goto_cycle_sem (s : Chip8) (inp : CycleInput) (a : Nat)
    (hpc : s.registers.program_counter + 1 < MEMORY)
    (hdec : interpret_instruction (fetch s) = .ok (.Goto a)) :
    ∃ s2 d, cycle s inp = .ok (s2, d) ∧ s2.registers.program_counter = a := by
  have hM : MEMORY = 4096 := rfl
  obtain ⟨-, hlt⟩ := goto_addr_eq _ _ hdec
  unfold cycle
  dsimp only
  rw [if_neg (by omega), hdec]
  unfold execute
  dsimp only
  rw [if_neg (by omega)]
  exact ⟨_, _, rfl, rfl⟩

theorem call_cycle_sem (s : Chip8) (inp : CycleInput) (a : Nat)
    (hpc : s.registers.program_counter + 1 < MEMORY)
    (hdec : interpret_instruction (fetch s) = .ok (.Call a)) :
    ∃ s2 d, cycle s inp = .ok (s2, d) ∧ s2.registers.program_counter = a ∧
      s2.stack = s.registers.program_counter :: s.stack := by
  have hM : MEMORY = 4096 := rfl
  obtain ⟨-, hlt⟩ := call_addr_eq _ _ hdec
  unfold cycle
  dsimp only
  rw [if_neg (by omega), hdec]
  unfold execute
  dsimp only
  rw [if_neg (by omega)]
  exact ⟨_, _, rfl, rfl, rfl⟩

theorem copyFromSlice_lt (l : List Nat) (f : Nat → Nat) (start j : Nat)
    (h : j < start) : copyFromSlice f start l j = f j := by
  induction l generalizing f start with
  | nil => rfl
  | cons v vs ih =>
    show copyFromSlice (updFn f start v) (start + 1) vs j = f j
    rw [ih _ _ (by omega)]
    unfold updFn
    rw [if_neg (by omega)]

theorem copyFromSlice_ge (l : List Nat) (f : Nat → Nat) (start j : Nat)
    (h : start + l.length ≤ j) : copyFromSlice f start l j = f j := by
  induction l generalizing f start with
  | nil => rfl
  | cons v vs ih =>
    simp only [List.length_cons] at h
    show copyFromSlice (updFn f start v) (start + 1) vs j = f j
    rw [ih _ _ (by omega)]
    unfold updFn
    rw [if_neg (by omega)]

theorem copyFromSlice_get (l : List Nat) (f : Nat → Nat) (start j : Nat)
    (h1 : start ≤ j) (h2 : j < start + l.length) :
    copyFromSlice f start l j = l.getD (j - start) 0 := by
  induction l generalizing f start with
  | nil => simp only [List.length_nil] at h2; omega
  | cons v vs ih =>
    simp only [List.length_cons] at h2
    show copyFromSlice (updFn f start v) (start + 1) vs j = _
    rcases Nat.eq_or_lt_of_le h1 with he | hlt
    · rw [copyFromSlice_lt _ _ _ _ (by omega)]
      unfold updFn
      rw [if_pos (by omega)]
      rw [show j - start = 0 from by omega]
      rfl
    · rw [ih _ _ (by omega) (by omega)]
      rw [show j - start = (j - (start + 1)) + 1 from by omega]
      rfl

set_option maxRecDepth 8000 in
theorem new_spec (program : List Nat) :
    (program.length ≥ MEMORY - PROGRAM_START →
      Chip8.new program =
        .error (.ProgramTooLarge (MEMORY - PROGRAM_START) program.length)) ∧
    (program.length < MEMORY - PROGRAM_START →
      ∃ c, Chip8.new program = .ok c ∧
        (∀ i, i < program.length →
          c.memory (PROGRAM_START + i) = program.getD i 0) ∧
        (∀ j, j < FONTSET.length →
          c.memory (FONTSET_START + j) = FONTSET.getD j 0) ∧
        FONTSET_START + FONTSET.length ≤ PROGRAM_START) := by
  have hM : MEMORY = 4096 := rfl
  have hPS : PROGRAM_START = 512 := rfl
  have hFS : FONTSET_START = 80 := rfl
  have hFL : FONTSET.length = 80 := rfl
  constructor
  · intro h
    unfold Chip8.new
    dsimp only
    rw [if_pos h]
  · intro h
    unfold Chip8.new
    dsimp only
    rw [if_neg (by omega)]
    refine ⟨_, rfl, ?_, ?_, by omega⟩
    · intro i hi
      show copyFromSlice (copyFromSlice (fun _ => 0) FONTSET_START FONTSET)
          PROGRAM_START program (PROGRAM_START + i) = _
      rw [copyFromSlice_get _ _ _ _ (by omega) (by omega)]
      congr 1
      omega
    · intro j hj
      show copyFromSlice (copyFromSlice (fun _ => 0) FONTSET_START FONTSET)
          PROGRAM_START program (FONTSET_START + j) = _
      rw [copyFromSlice_lt _ _ _ _ (by omega)]
      rw [copyFromSlice_get _ _ _ _ (by omega) (by omega)]
      congr 1
      omega

set_option maxHeartbeats 1000000 in
theorem execute_flag (instr : Instruction) (s : Chip8) (inp : CycleInput)
    (s2 : Chip8) (inc : Bool) (h : execute instr s inp = .ok (s2, inc))
    (hf : s.io.draw_flag = true) : s2.io.draw_flag = true := by
  cases instr <;>
    (unfold execute at h; dsimp only at h) <;>
    (try split at h) <;>
    (try split at h) <;>
    (try cases h) <;>
    simp_all [Io.set_draw_flag, Io.clear_screen, Io.set_keys, Registers.set]

theorem cycle_flag (s : Chip8) (inp : CycleInput) (s2 : Chip8) (n : Nat)
    (h : cycle s inp = .ok (s2, n)) (hf : s.io.draw_flag = true) :
    s2.io.draw_flag = true := by
  unfold cycle at h
  dsimp only at h
  split at h
  · injection h with h1
    injection h1 with h1 h2
    subst h1
    exact hf
  · split at h
    · cases h
    · rename_i instr hdec
      generalize he : execute instr { s with io := s.io.set_keys inp.keys } inp = r at h
      match r, h with
      | .ok (s3, inc), h =>
        have hflag : s3.io.draw_flag = true := execute_flag _ _ _ _ _ he hf
        dsimp only at h
        injection h with h1
        injection h1 with h1 h2
        subst h1
        cases inc <;> simp_all

theorem cycle_draws_once (s : Chip8) (inp : CycleInput) (s2 : Chip8) (n : Nat)
    (h : cycle s inp = .ok (s2, n)) (hf : s.io.draw_flag = true)
    (he : s2.program_ended = false) : n = 1 := by
  unfold cycle at h
  dsimp only at h
  split at h
  · injection h with h1
    injection h1 with h1 h2
    subst h1
    simp at he
  · split at h
    · cases h
    · rename_i instr hdec
      generalize hex : execute instr { s with io := s.io.set_keys inp.keys } inp = r at h
      match r, h with
      | .ok (s3, inc), h =>
        have hflag : s3.io.draw_flag = true := execute_flag _ _ _ _ _ hex hf
        dsimp only at h
        injection h with h1
        injection h1 with h1 h2
        subst h2
        simp [hflag]

theorem new_flag (program : List Nat) (c : Chip8)
    (h : Chip8.new program = .ok c) : c.io.draw_flag = true := by
  unfold Chip8.new at h
  dsimp only at h
  split at h
  · cases h
  · injection h with h1
    subst h1
    rfl


/-! ## Claim theorems -/

/-- C1 (code evaluation at the failing input): the `Draw` arm of
`Chip8::cycle` overwrites each touched pixel with the sprite bit instead
of XOR-ing it.  Starting from a cleared screen with sprite byte 0x80 at
I = 0, executing the same in-bounds `Draw V0,V1,1` at (0,0) twice in
succession leaves pixel (0,0) set and VF = 0 on the second draw — the
spec's XOR-blit semantics would clear the pixel and set VF = 1.  (The
first draw flushes once, sets the pixel and leaves VF = 0, on which the
code and the spec agree.) -/
theorem claim_draw_overwrite :
    resCount (cycle drawState quietInput) = 1 ∧
    drawOnce.io.pixels 0 = true ∧
    drawOnce.registers.general 0xF = 0 ∧
    isOk (cycle drawBack quietInput) = true ∧
    drawTwice.io.pixels 0 = true ∧
    drawTwice.registers.general 0xF = 0 := by decide

/-- C2 (counterexample): the claim "Sub sets VF to 0 iff a < b" fails on
the code at V0 = 0x10, V1 = 0x30: a borrow occurs, and the code sets
VF = 1, not 0. -/
theorem claim_sub_borrow_counterexample :
    ¬(((resState (cycle (subState 0x10 0x30) quietInput)
          (subState 0x10 0x30)).registers.general 0xF = 0) ↔
        (0x10 : Nat) < 0x30) := by decide

/-- C2 (amended): executing `Sub X,Y` with VX = a, VY = b and X ≠ 0xF
sets VF to 1 if and only if a < b (an unsigned borrow), and sets VX to
(a − b) mod 256. -/
theorem claim_sub_vf_one_iff_borrow (s : Chip8) (inp : CycleInput)
    (x y a b : Nat)
    (hpc : s.registers.program_counter + 1 < MEMORY)
    (hdec : interpret_instruction (fetch s) = .ok (.Sub x y))
    (hx : x ≠ 0xF)
    (ha : s.registers.general x = a) (hb : s.registers.general y = b)
    (_ha8 : a < 256) (_hb8 : b < 256) :
    ∃ s2 n, cycle s inp = .ok (s2, n) ∧
      s2.registers.general x = (a + 256 - b) % 256 ∧
      (s2.registers.general 0xF = 1 ↔ a < b) := by
  have hM : MEMORY = 4096 := rfl
  unfold cycle
  dsimp only
  rw [if_neg (by omega), hdec]
  unfold execute
  dsimp only
  refine ⟨_, _, rfl, ?_, ?_⟩
  · simp [Registers.set, Registers.get, Io.set_keys, updFn, hx, ha, hb]
  · simp [Registers.set, Registers.get, Io.set_keys, updFn, ha, hb]

/-- C2 witness: the amended Sub claim at V0 = 0x10, V1 = 0x30. -/
theorem claim_sub_vf_one_iff_borrow_witness :
    ∃ s2 n, cycle (subState 0x10 0x30) quietInput = .ok (s2, n) ∧
      s2.registers.general 0 = (0x10 + 256 - 0x30) % 256 ∧
      (s2.registers.general 0xF = 1 ↔ (0x10 : Nat) < 0x30) :=
  claim_sub_vf_one_iff_borrow (subState 0x10 0x30) quietInput 0 1 0x10 0x30
    (by decide) (by decide) (by decide) (by decide) (by decide) (by decide)
    (by decide)

/-- C3 (counterexample): `Return` does not suppress the default
advance-by-2 (its arm never clears `increment_pc`), so with return
address 0x300 stacked the cycle ends with PC = 0x302, not the popped
0x300; and with an empty stack PC advances from 0x200 to 0x202 rather
than staying unchanged. -/
theorem claim_return_pc_counterexample :
    retState.stack = [0x300] ∧
    retState.registers.program_counter = 0x200 ∧
    (resState (cycle retState quietInput) retState).registers.program_counter
      = 0x302 ∧
    (0x302 : Nat) ≠ 0x300 ∧
    retEmptyState.stack = [] ∧
    (resState (cycle retEmptyState quietInput)
        retEmptyState).registers.program_counter = 0x202 ∧
    (0x202 : Nat) ≠ 0x200 := by decide

/-- C3 (amended): executing `Return` pops the stack into PC and the
default advance-by-2 still applies, so the cycle ends with PC at the
popped address + 2 (a u16 sum); when the stack is empty the PC simply
advances by 2.  In neither case is an error raised. -/
theorem claim_return_pops_then_advances (s : Chip8) (inp : CycleInput)
    (hpc : s.registers.program_counter + 1 < MEMORY)
    (hdec : interpret_instruction (fetch s) = .ok .Return) :
    ∃ s2 n, cycle s inp = .ok (s2, n) ∧
      (s.stack = [] →
        s2.registers.program_counter = s.registers.program_counter + 2 ∧
        s2.stack = []) ∧
      (∀ a rest, s.stack = a :: rest →
        s2.registers.program_counter = (a + 2) % 65536 ∧ s2.stack = rest) :=
  return_semantics s inp hpc hdec

/-- C3 witness: the amended Return claim at a state with 0x300 stacked. -/
theorem claim_return_pops_then_advances_witness :
    ∃ s2 n, cycle retState quietInput = .ok (s2, n) ∧
      (retState.stack = [] →
        s2.registers.program_counter = retState.registers.program_counter + 2 ∧
        s2.stack = []) ∧
      (∀ a rest, retState.stack = a :: rest →
        s2.registers.program_counter = (a + 2) % 65536 ∧ s2.stack = rest) :=
  claim_return_pops_then_advances retState quietInput (by decide) (by decide)

/-- C4: executing `Sub X,Y` with VX = a, VY = b and X ≠ 0xF sets VX to
the wrapping difference (a − b) mod 256 and VF to 1 if an unsigned
borrow (a < b) occurred, 0 otherwise. -/
theorem claim_sub_wrapping_borrow (s : Chip8) (inp : CycleInput)
    (x y a b : Nat)
    (hpc : s.registers.program_counter + 1 < MEMORY)
    (hdec : interpret_instruction (fetch s) = .ok (.Sub x y))
    (hx : x ≠ 0xF)
    (ha : s.registers.general x = a) (hb : s.registers.general y = b)
    (_ha8 : a < 256) (_hb8 : b < 256) :
    ∃ s2 n, cycle s inp = .ok (s2, n) ∧
      s2.registers.general x = (a + 256 - b) % 256 ∧
      s2.registers.general 0xF = (if a < b then 1 else 0) := by
  have hM : MEMORY = 4096 := rfl
  unfold cycle
  dsimp only
  rw [if_neg (by omega), hdec]
  unfold execute
  dsimp only
  refine ⟨_, _, rfl, ?_, ?_⟩
  · simp [Registers.set, Registers.get, Io.set_keys, updFn, hx, ha, hb]
  · simp [Registers.set, Registers.get, Io.set_keys, updFn, ha, hb]

/-- C4 witness: Sub at V0 = 0x30, V1 = 0x10 (no borrow). -/
theorem claim_sub_wrapping_borrow_witness :
    ∃ s2 n, cycle (subState 0x30 0x10) quietInput = .ok (s2, n) ∧
      s2.registers.general 0 = (0x30 + 256 - 0x10) % 256 ∧
      s2.registers.general 0xF = (if (0x30 : Nat) < 0x10 then 1 else 0) :=
  claim_sub_wrapping_borrow (subState 0x30 0x10) quietInput 0 1 0x30 0x10
    (by decide) (by decide) (by decide) (by decide) (by decide) (by decide)
    (by decide)

/-- C5: for every machine state whose fetched opcode decodes to
`SkipEqConst`, `SkipNeqConst`, `SkipEq` or `SkipNeq`, the cycle advances
the program counter by exactly 4 when the instruction's condition holds
and by exactly 2 otherwise. -/
theorem claim_skip_advance :
    (∀ s inp x n, s.registers.program_counter + 1 < MEMORY →
      interpret_instruction (fetch s) = .ok (.SkipEqConst x n) →
      ∃ s2 d, cycle s inp = .ok (s2, d) ∧
        s2.registers.program_counter = s.registers.program_counter +
          (if s.registers.general x = n then 4 else 2)) ∧
    (∀ s inp x n, s.registers.program_counter + 1 < MEMORY →
      interpret_instruction (fetch s) = .ok (.SkipNeqConst x n) →
      ∃ s2 d, cycle s inp = .ok (s2, d) ∧
        s2.registers.program_counter = s.registers.program_counter +
          (if s.registers.general x ≠ n then 4 else 2)) ∧
    (∀ s inp x y, s.registers.program_counter + 1 < MEMORY →
      interpret_instruction (fetch s) = .ok (.SkipEq x y) →
      ∃ s2 d, cycle s inp = .ok (s2, d) ∧
        s2.registers.program_counter = s.registers.program_counter +
          (if s.registers.general x = s.registers.general y then 4 else 2)) ∧
    (∀ s inp x y, s.registers.program_counter + 1 < MEMORY →
      interpret_instruction (fetch s) = .ok (.SkipNeq x y) →
      ∃ s2 d, cycle s inp = .ok (s2, d) ∧
        s2.registers.program_counter = s.registers.program_counter +
          (if s.registers.general x ≠ s.registers.general y then 4 else 2)) :=
  ⟨fun s inp x n hpc hdec => skipEqConst_sem s inp x n hpc hdec,
   fun s inp x n hpc hdec => skipNeqConst_sem s inp x n hpc hdec,
   fun s inp x y hpc hdec => skipEq_sem s inp x y hpc hdec,
   fun s inp x y hpc hdec => skipNeq_sem s inp x y hpc hdec⟩

/-- C5 witness: each skip instruction at a concrete state. -/
theorem claim_skip_advance_witness :
    (∃ s2 d, cycle skipEqSt quietInput = .ok (s2, d) ∧
      s2.registers.program_counter = skipEqSt.registers.program_counter +
        (if skipEqSt.registers.general 0 = 7 then 4 else 2)) ∧
    (∃ s2 d, cycle skipNeqSt quietInput = .ok (s2, d) ∧
      s2.registers.program_counter = skipNeqSt.registers.program_counter +
        (if skipNeqSt.registers.general 0 ≠ 7 then 4 else 2)) ∧
    (∃ s2 d, cycle skipEqRRSt quietInput = .ok (s2, d) ∧
      s2.registers.program_counter = skipEqRRSt.registers.program_counter +
        (if skipEqRRSt.registers.general 0 = skipEqRRSt.registers.general 1
         then 4 else 2)) ∧
    (∃ s2 d, cycle skipNeqRRSt quietInput = .ok (s2, d) ∧
      s2.registers.program_counter = skipNeqRRSt.registers.program_counter +
        (if skipNeqRRSt.registers.general 0 ≠ skipNeqRRSt.registers.general 1
         then 4 else 2)) :=
  ⟨claim_skip_advance.1 skipEqSt quietInput 0 7 (by decide) (by decide),
   claim_skip_advance.2.1 skipNeqSt quietInput 0 7 (by decide) (by decide),
   claim_skip_advance.2.2.1 skipEqRRSt quietInput 0 1 (by decide) (by decide),
   claim_skip_advance.2.2.2 skipNeqRRSt quietInput 0 1 (by decide) (by decide)⟩

/-- C6: `bcd` writes the three decimal digits of a byte (BCD 255 gives
[2,5,5], BCD 0 gives [0,0,0], and the digits always recombine to the
byte), and executing `BCD X` writes them to memory at I, I+1, I+2 when
I + 2 < memory size, failing with `InvalidAddress` exactly when
I + 2 ≥ memory size. -/
theorem claim_bcd_digits :
    bcd 255 = [2, 5, 5] ∧
    bcd 0 = [0, 0, 0] ∧
    (∀ a, a < 256 →
      100 * (bcd a).getD 0 0 + 10 * (bcd a).getD 1 0 + (bcd a).getD 2 0 = a) ∧
    (∀ s inp r, s.registers.program_counter + 1 < MEMORY →
      interpret_instruction (fetch s) = .ok (.BCD r) →
      (s.registers.index + 2 < MEMORY →
        ∃ s2 d, cycle s inp = .ok (s2, d) ∧
          s2.memory s.registers.index = s.registers.general r / 100 % 10 ∧
          s2.memory (s.registers.index + 1) = s.registers.general r / 10 % 10 ∧
          s2.memory (s.registers.index + 2) = s.registers.general r % 10) ∧
      (s.registers.index + 2 ≥ MEMORY →
        cycle s inp = .error (.InvalidAddress s.registers.index "BCD"))) := by
  refine ⟨by decide, by decide, ?_, fun s inp r hpc hdec => bcd_cycle_sem s inp r hpc hdec⟩
  intro a ha
  show 100 * (a / 100 % 10) + 10 * (a / 10 % 10) + a % 10 = a
  omega

/-- C6 witness: BCD of 255 at I = 0 writes 2, 5, 5; BCD at I = 4094
fails with `InvalidAddress`. -/
theorem claim_bcd_digits_witness :
    (∃ s2 d, cycle (bcdState 0) quietInput = .ok (s2, d) ∧
      s2.memory 0 = 2 ∧ s2.memory 1 = 5 ∧ s2.memory 2 = 5) ∧
    cycle (bcdState 4094) quietInput = .error (.InvalidAddress 4094 "BCD") := by
  constructor
  · obtain ⟨s2, d, hc, h0, h1, h2⟩ :=
      (claim_bcd_digits.2.2.2 (bcdState 0) quietInput 0 (by decide)
        (by decide)).1 (by decide)
    exact ⟨s2, d, hc, h0, h1, h2⟩
  · exact (claim_bcd_digits.2.2.2 (bcdState 4094) quietInput 0 (by decide)
      (by decide)).2 (by decide)

/-- C7: the decoder maps 0x00E0 to `ClearScreen`, every 0x1NNN to
`Goto NNN`, every 0x8XY6 to `Shr X` for every Y, and every opcode with
high nibble 0xF whose low byte is not a recognized suffix to an
`InvalidOpcode` decode error; in general every opcode either decodes to
some instruction or fails with `InvalidOpcode` (never any other outcome). -/
theorem claim_decoder_table :
    interpret_instruction 0x00E0 = .ok .ClearScreen ∧
    (∀ n, n < 4096 → interpret_instruction (0x1000 + n) = .ok (.Goto n)) ∧
    (∀ x y, x < 16 → y < 16 →
      interpret_instruction (0x8006 + 256 * x + 16 * y) = .ok (.Shr x)) ∧
    (∀ x b, x < 16 → b < 256 → b ∉ fSuffixes →
      interpret_instruction (0xF000 + 256 * x + b) =
        .error (.InvalidOpcode (formatHex4 (0xF000 + 256 * x + b)))) ∧
    (∀ o, interpret_instruction o = .error (.InvalidOpcode (formatHex4 o)) ∨
      ∃ i, interpret_instruction o = .ok i) :=
  ⟨by decide,
   fun n hn => goto_decode n hn,
   fun x y hx hy => shr_decode x y hx hy,
   fun x b hx hb hs => invalid_f_decode x b hx hb hs,
   interpret_total⟩

/-- C7 witness: the decoder facts at 0x1ABC, 0x8126, 0xF034 and 0xE000. -/
theorem claim_decoder_table_witness :
    interpret_instruction 0x1ABC = .ok (.Goto 0xABC) ∧
    interpret_instruction 0x8126 = .ok (.Shr 1) ∧
    interpret_instruction 0xF034 = .error (.InvalidOpcode "0xF034") ∧
    (interpret_instruction 0xE000 =
        .error (.InvalidOpcode (formatHex4 0xE000)) ∨
      ∃ i, interpret_instruction 0xE000 = .ok i) :=
  ⟨claim_decoder_table.2.1 0xABC (by decide),
   claim_decoder_table.2.2.1 1 2 (by decide) (by decide),
   claim_decoder_table.2.2.2.1 0 0x34 (by decide) (by decide) (by decide),
   claim_decoder_table.2.2.2.2 0xE000⟩

/-- C8: machine construction fails with `ProgramTooLarge` exactly when
the program length is at least `MEMORY - PROGRAM_START` = 3584 bytes; on
success the program occupies memory from 0x200 and the fontset its
reserved low region, which ends below 0x200. -/
theorem claim_new_program_layout (program : List Nat) :
    (program.length ≥ MEMORY - PROGRAM_START →
      Chip8.new program =
        .error (.ProgramTooLarge (MEMORY - PROGRAM_START) program.length)) ∧
    (program.length < MEMORY - PROGRAM_START →
      ∃ c, Chip8.new program = .ok c ∧
        (∀ i, i < program.length →
          c.memory (PROGRAM_START + i) = program.getD i 0) ∧
        (∀ j, j < FONTSET.length →
          c.memory (FONTSET_START + j) = FONTSET.getD j 0) ∧
        FONTSET_START + FONTSET.length ≤ PROGRAM_START) :=
  new_spec program

/-- C8 witness: a 3584-byte program is rejected; a 1-byte program loads
at 0x200. -/
theorem claim_new_program_layout_witness :
    Chip8.new (List.replicate 3584 0) =
      .error (.ProgramTooLarge 3584 3584) ∧
    ∃ c, Chip8.new [0xAB] = .ok c ∧ c.memory 0x200 = 0xAB := by
  constructor
  · have h := (claim_new_program_layout (List.replicate 3584 0)).1
      (by rw [List.length_replicate]; decide)
    rwa [List.length_replicate] at h
  · obtain ⟨c, hc, hp, hf, hd⟩ :=
      (claim_new_program_layout [0xAB]).2 (by decide)
    exact ⟨c, hc, hp 0 (by decide)⟩

/-- C9: the redraw flag starts true at construction, no successful cycle
ever makes it false, and every successful cycle that does not mark the
program ended invokes the external draw capability exactly once. -/
theorem claim_draw_flag_invariant :
    (∀ program c, Chip8.new program = .ok c → c.io.draw_flag = true) ∧
    (∀ s inp s2 n, cycle s inp = .ok (s2, n) → s.io.draw_flag = true →
      s2.io.draw_flag = true) ∧
    (∀ s inp s2 n, cycle s inp = .ok (s2, n) → s.io.draw_flag = true →
      s2.program_ended = false → n = 1) :=
  ⟨fun program c h => new_flag program c h,
   fun s inp s2 n h hf => cycle_flag s inp s2 n h hf,
   fun s inp s2 n h hf he => cycle_draws_once s inp s2 n h hf he⟩

/-- C9 witness: the flag after construction, and flag preservation and a
single draw on a concrete Sub cycle. -/
theorem claim_draw_flag_invariant_witness :
    (newChip [0x00]).io.draw_flag = true ∧
    (resState (cycle (subState 1 2) quietInput) (subState 1 2)).io.draw_flag
      = true ∧
    resCount (cycle (subState 1 2) quietInput) = 1 :=
  ⟨claim_draw_flag_invariant.1 [0x00] (newChip [0x00]) rfl,
   claim_draw_flag_invariant.2.1 (subState 1 2) quietInput
     (resState (cycle (subState 1 2) quietInput) (subState 1 2))
     (resCount (cycle (subState 1 2) quietInput)) rfl rfl,
   claim_draw_flag_invariant.2.2 (subState 1 2) quietInput
     (resState (cycle (subState 1 2) quietInput) (subState 1 2))
     (resCount (cycle (subState 1 2) quietInput)) rfl rfl (by decide)⟩

/-- C10: every decoded `Goto`, `Call` and `OffsetGoto` carries the
opcode's masked low 12 bits, hence an address below 4096 = memory size;
consequently executing a decoded `Goto` or `Call` never fails (the
in-cycle `addr ≥ MEMORY` check can never be true). -/
theorem claim_jump_targets_safe :
    (∀ o a, interpret_instruction o = .ok (.Goto a) →
      a = o &&& 0x0FFF ∧ a < 4096) ∧
    (∀ o a, interpret_instruction o = .ok (.Call a) →
      a = o &&& 0x0FFF ∧ a < 4096) ∧
    (∀ o a, interpret_instruction o = .ok (.OffsetGoto a) →
      a = o &&& 0xFFF ∧ a < 4096) ∧
    (∀ s inp a, s.registers.program_counter + 1 < MEMORY →
      interpret_instruction (fetch s) = .ok (.Goto a) →
      ∃ s2 d, cycle s inp = .ok (s2, d) ∧
        s2.registers.program_counter = a) ∧
    (∀ s inp a, s.registers.program_counter + 1 < MEMORY →
      interpret_instruction (fetch s) = .ok (.Call a) →
      ∃ s2 d, cycle s inp = .ok (s2, d) ∧
        s2.registers.program_counter = a ∧
        s2.stack = s.registers.program_counter :: s.stack) :=
  ⟨fun o a h => goto_addr_eq o a h,
   fun o a h => call_addr_eq o a h,
   fun o a h => offset_goto_addr_eq o a h,
   fun s inp a hpc hdec => goto_cycle_sem s inp a hpc hdec,
   fun s inp a hpc hdec => call_cycle_sem s inp a hpc hdec⟩

/-- C10 witness: the decoded address of 0x1ABC, and successful `Goto` and
`Call` cycles to 0x300. -/
theorem claim_jump_targets_safe_witness :
    ((0xABC : Nat) = 0x1ABC &&& 0x0FFF ∧ (0xABC : Nat) < 4096) ∧
    (∃ s2 d, cycle gotoState quietInput = .ok (s2, d) ∧
      s2.registers.program_counter = 0x300) ∧
    (∃ s2 d, cycle callState quietInput = .ok (s2, d) ∧
      s2.registers.program_counter = 0x300 ∧
      s2.stack = callState.registers.program_counter :: callState.stack) :=
  ⟨claim_jump_targets_safe.1 0x1ABC 0xABC (by decide),
   claim_jump_targets_safe.2.2.2.1 gotoState quietInput 0x300 (by decide)
     (by decide),
   claim_jump_targets_safe.2.2.2.2 callState quietInput 0x300 (by decide)
     (by decide)⟩

end Chip8Emu
